import Mathlib

/-!
Shallow embedding of the msk reconciliation core: the cluster/project sync
orchestrator (internal/clusters/service.go, internal/project/service.go), the
database stores and their SQL (DBClusterStore.StoreClusters,
DBClusterStore.MarkStaleClustersAsDeleted, DBProjectStore.StoreProjects,
internal/db/query), and the VPC route reconciler (vpcrtb.UpdateRoutes).
Timestamps are modelled as natural numbers (a logical clock); machine
integers as Int.
-/

/-- Model of one digit-string pass of Go strconv.ParseInt: at least one
base-10 digit, no other characters. -/
def parseDigits : List Char → Option Nat
  | [] => none
  | cs =>
    cs.foldl
      (fun acc c =>
        match acc with
        | none => none
        | some n =>
          if '0' ≤ c ∧ c ≤ '9' then some (n * 10 + (c.toNat - '0'.toNat)) else none)
      (some 0)

/-- Model of Go strconv.ParseInt(s, 10, 64): optional leading sign, a
non-empty run of base-10 digits, and the signed value must fit in 64 bits;
none models a returned error. -/
def parseInt64 (s : String) : Option Int :=
  let signed : Bool × List Char :=
    match s.toList with
    | '-' :: r => (true, r)
    | '+' :: r => (false, r)
    | r => (false, r)
  match parseDigits signed.2 with
  | none => none
  | some n =>
    let v : Int := if signed.1 then -(n : Int) else (n : Int)
    if -(2 ^ 63) ≤ v ∧ v ≤ 2 ^ 63 - 1 then some v else none

/-- clusters.ClusterStatus, keeping the fields consumed by the store
(the node map feeds only StoreClusterNodes, which no modelled operation
uses). -/
structure ClusterStatus where
  tidbVersion : String
  clusterStatus : String
deriving DecidableEq, Repr

/-- clusters.Cluster: the remote item as decoded from the listing API. -/
structure Cluster where
  id : String
  projectID : String
  name : String
  clusterType : String
  cloudProvider : String
  region : String
  createTimestamp : String
  status : ClusterStatus
deriving DecidableEq, Repr

/-- One row of the clusters table, columns as in the repo's DDL
(id is the primary key). -/
structure ClusterRow where
  id : String
  projectID : String
  name : String
  clusterType : String
  cloudProvider : String
  region : String
  createTimestamp : Int
  tidbVersion : String
  clusterStatus : String
  isDeleted : Bool
  createdAt : Nat
  updatedAt : Nat
  deletedAt : Option Nat
deriving DecidableEq, Repr

/-- db.UpsertClusterParams, field order as in StoreClusters. -/
structure UpsertClusterParams where
  id : String
  projectID : String
  name : String
  clusterType : String
  cloudProvider : String
  region : String
  createTimestamp : Int
  clusterStatus : String
  tidbVersion : String
deriving DecidableEq, Repr

/-- Whether the columns in the ON DUPLICATE KEY UPDATE list of UpsertCluster
already hold the incoming values (MySQL leaves the row untouched, and the
updated_at auto-column unrefreshed, in that case). -/
def clusterRowUnchanged (row : ClusterRow) (p : UpsertClusterParams) : Bool :=
  row.projectID = p.projectID && row.name = p.name &&
  row.clusterType = p.clusterType && row.cloudProvider = p.cloudProvider &&
  row.region = p.region && row.createTimestamp = p.createTimestamp &&
  row.tidbVersion = p.tidbVersion && row.clusterStatus = p.clusterStatus

/-- The ON DUPLICATE KEY UPDATE branch of UpsertCluster on a matching row:
every listed column is overwritten with VALUES(...); is_deleted, created_at
and deleted_at are not in the list; updated_at refreshes only when the row
actually changes. -/
def applyClusterUpdate (row : ClusterRow) (p : UpsertClusterParams) (now : Nat) : ClusterRow :=
  if clusterRowUnchanged row p then row
  else
    { row with
      projectID := p.projectID, name := p.name, clusterType := p.clusterType,
      cloudProvider := p.cloudProvider, region := p.region,
      createTimestamp := p.createTimestamp, tidbVersion := p.tidbVersion,
      clusterStatus := p.clusterStatus, updatedAt := now }

/-- The INSERT branch of UpsertCluster: column defaults from the DDL
(is_deleted FALSE, created_at/updated_at CURRENT_TIMESTAMP, deleted_at NULL). -/
def newClusterRow (p : UpsertClusterParams) (now : Nat) : ClusterRow :=
  ⟨p.id, p.projectID, p.name, p.clusterType, p.cloudProvider, p.region,
   p.createTimestamp, p.tidbVersion, p.clusterStatus, false, now, now, none⟩

/-- SQL UpsertCluster (internal/db/query/clusters.sql): INSERT ... ON
DUPLICATE KEY UPDATE keyed on the primary key id. -/
def upsertCluster (db : List ClusterRow) (p : UpsertClusterParams) (now : Nat) : List ClusterRow :=
  if db.any (fun r => r.id = p.id) then
    db.map (fun r => if r.id = p.id then applyClusterUpdate r p now else r)
  else db ++ [newClusterRow p now]

/-- SQL MarkStaleClustersAsDeleted: UPDATE clusters SET is_deleted = TRUE,
deleted_at = CURRENT_TIMESTAMP WHERE project_id = ? AND updated_at < ? AND
is_deleted = FALSE, processed row by row; also returns the affected-row
count that DBClusterStore.MarkStaleClustersAsDeleted reads back. -/
def markStaleClustersAsDeleted (projectID : String) (syncedAt now : Nat) :
    List ClusterRow → List ClusterRow × Nat
  | [] => ([], 0)
  | r :: rest =>
    let tail := markStaleClustersAsDeleted projectID syncedAt now rest
    if r.projectID = projectID ∧ r.updatedAt < syncedAt ∧ r.isDeleted = false then
      ({ r with isDeleted := true, deletedAt := some now } :: tail.1, tail.2 + 1)
    else (r :: tail.1, tail.2)

/-- Store errors surfaced by StoreClusters/StoreProjects: an unparsable
create_timestamp names the failing item's name and id; a failed upsert names
the failing item's id and wraps the driver cause. -/
inductive StoreErr where
  | invalidTimestamp (name id : String)
  | upsertFailed (id : String) (cause : String)
deriving DecidableEq, Repr

/-- Observable outcome of one store call: the table after the call, whether a
transaction was begun, whether it committed, whether an explicit rollback was
issued, and the returned error. -/
structure StoreOutcome (ρ : Type) where
  db : List ρ
  beganTx : Bool
  committed : Bool
  rolledBack : Bool
  err : Option StoreErr
deriving DecidableEq, Repr

/-- The per-item loop of DBClusterStore.StoreClusters: parse
create_timestamp (an error returns without rollback, leaving the
never-committed transaction, so the table stays orig), then upsert inside
the transaction (an error rolls back and returns); after the last item the
transaction commits. upsertImpl is the database's possibly-failing upsert. -/
def storeClustersLoop
    (upsertImpl : List ClusterRow → UpsertClusterParams → Except String (List ClusterRow))
    (orig : List ClusterRow) : List Cluster → List ClusterRow → StoreOutcome ClusterRow
  | [], tx => ⟨tx, true, true, false, none⟩
  | c :: rest, tx =>
    match parseInt64 c.createTimestamp with
    | none => ⟨orig, true, false, false, some (.invalidTimestamp c.name c.id)⟩
    | some ts =>
      match upsertImpl tx ⟨c.id, c.projectID, c.name, c.clusterType, c.cloudProvider,
          c.region, ts, c.status.clusterStatus, c.status.tidbVersion⟩ with
      | .error cause => ⟨orig, true, false, true, some (.upsertFailed c.id cause)⟩
      | .ok tx2 => storeClustersLoop upsertImpl orig rest tx2

/-- DBClusterStore.StoreClusters: a no-op before any transaction on an empty
batch, otherwise one transaction around the whole batch. -/
def storeClusters
    (upsertImpl : List ClusterRow → UpsertClusterParams → Except String (List ClusterRow))
    (db : List ClusterRow) (clusters : List Cluster) : StoreOutcome ClusterRow :=
  if clusters.isEmpty then ⟨db, false, false, false, none⟩
  else storeClustersLoop upsertImpl db clusters db

/-- The never-failing upsert implementation: the SQL UpsertCluster itself. -/
def pureClusterUpsert (now : Nat) :
    List ClusterRow → UpsertClusterParams → Except String (List ClusterRow) :=
  fun tx p => .ok (upsertCluster tx p now)

/-- project.Project: the remote item as decoded from the listing API. -/
structure Project where
  id : String
  orgID : String
  name : String
  clusterCount : Int
  userCount : Int
  createTimestamp : String
  awsCmekEnabled : Bool
deriving DecidableEq, Repr

/-- One row of the projects table, columns as in the repo's DDL. -/
structure ProjectRow where
  id : String
  orgID : String
  name : String
  clusterCount : Int
  userCount : Int
  createTimestamp : Int
  awsCmekEnabled : Bool
  fetchedAt : Nat
deriving DecidableEq, Repr

/-- db.UpsertProjectParams. -/
structure UpsertProjectParams where
  id : String
  orgID : String
  name : String
  clusterCount : Int
  userCount : Int
  createTimestamp : Int
  awsCmekEnabled : Bool
deriving DecidableEq, Repr

/-- Go int32 conversion: wrap into the signed 32-bit range. -/
def wrap32 (v : Int) : Int := (v + 2 ^ 31) % 2 ^ 32 - 2 ^ 31

/-- Whether the columns in the ON DUPLICATE KEY UPDATE list of UpsertProject
already hold the incoming values. -/
def projectRowUnchanged (row : ProjectRow) (p : UpsertProjectParams) : Bool :=
  row.orgID = p.orgID && row.name = p.name &&
  row.clusterCount = p.clusterCount && row.userCount = p.userCount &&
  row.createTimestamp = p.createTimestamp && row.awsCmekEnabled = p.awsCmekEnabled

/-- The ON DUPLICATE KEY UPDATE branch of UpsertProject; fetched_at is the
auto-updating timestamp column of the projects table. -/
def applyProjectUpdate (row : ProjectRow) (p : UpsertProjectParams) (now : Nat) : ProjectRow :=
  if projectRowUnchanged row p then row
  else
    { row with
      orgID := p.orgID, name := p.name, clusterCount := p.clusterCount,
      userCount := p.userCount, createTimestamp := p.createTimestamp,
      awsCmekEnabled := p.awsCmekEnabled, fetchedAt := now }

/-- The INSERT branch of UpsertProject (fetched_at defaults to
CURRENT_TIMESTAMP). -/
def newProjectRow (p : UpsertProjectParams) (now : Nat) : ProjectRow :=
  ⟨p.id, p.orgID, p.name, p.clusterCount, p.userCount, p.createTimestamp,
   p.awsCmekEnabled, now⟩

/-- SQL UpsertProject (internal/db/query/projects.sql): INSERT ... ON
DUPLICATE KEY UPDATE keyed on the primary key id. -/
def upsertProject (db : List ProjectRow) (p : UpsertProjectParams) (now : Nat) : List ProjectRow :=
  if db.any (fun r => r.id = p.id) then
    db.map (fun r => if r.id = p.id then applyProjectUpdate r p now else r)
  else db ++ [newProjectRow p now]

/-- The per-item loop of DBProjectStore.StoreProjects: an unparsable
create_timestamp silently becomes 0 (parsing is "not critical"), a failed
upsert rolls back and returns; after the last item the transaction commits. -/
def storeProjectsLoop
    (upsertImpl : List ProjectRow → UpsertProjectParams → Except String (List ProjectRow))
    (orig : List ProjectRow) : List Project → List ProjectRow → StoreOutcome ProjectRow
  | [], tx => ⟨tx, true, true, false, none⟩
  | pr :: rest, tx =>
    let ct : Int := (parseInt64 pr.createTimestamp).getD 0
    match upsertImpl tx ⟨pr.id, pr.orgID, pr.name, wrap32 pr.clusterCount,
        wrap32 pr.userCount, ct, pr.awsCmekEnabled⟩ with
    | .error cause => ⟨orig, true, false, true, some (.upsertFailed pr.id cause)⟩
    | .ok tx2 => storeProjectsLoop upsertImpl orig rest tx2

/-- DBProjectStore.StoreProjects: a no-op before any transaction on an empty
batch, otherwise one transaction around the whole batch. -/
def storeProjects
    (upsertImpl : List ProjectRow → UpsertProjectParams → Except String (List ProjectRow))
    (db : List ProjectRow) (projects : List Project) : StoreOutcome ProjectRow :=
  if projects.isEmpty then ⟨db, false, false, false, none⟩
  else storeProjectsLoop upsertImpl db projects db

/-- The never-failing project upsert implementation. -/
def pureProjectUpsert (now : Nat) :
    List ProjectRow → UpsertProjectParams → Except String (List ProjectRow) :=
  fun tx p => .ok (upsertProject tx p now)

/-- The collaborators of clusterService, as interfaces: the paginated
fetcher, the batch store, and the stale marker. Each may fail with a cause
string. The stale marker takes the sync epoch (a clock value). -/
structure SyncEnv where
  fetchClusters : String → Nat → Int → Except String (List Cluster × Int)
  storeClusters : List Cluster → Except String Unit
  markStale : String → Nat → Except String Int

/-- One observable call made by the orchestrator. -/
inductive EventKind where
  | fetchCall (projectID : String) (page : Nat) (pageSize : Int)
  | storeCall (clusters : List Cluster)
  | markStaleCall (projectID : String) (epoch : Nat)
deriving DecidableEq, Repr

/-- A call stamped with the logical time at which it was issued; every
primitive call (including the time.Now() capture) advances the clock. -/
structure Event where
  time : Nat
  kind : EventKind
deriving DecidableEq, Repr

/-- The wrapped errors FetchAndStoreClusters returns, each identifying the
failing project and carrying the underlying cause. -/
inductive SyncErr where
  | fetchFailed (projectID : String) (pageSize : Int) (cause : String)
  | storeFailed (clusterCount : Nat) (projectID : String) (pageSize : Int) (cause : String)
  | markStaleFailed (projectID : String) (cause : String)
deriving DecidableEq, Repr

/-- The project a SyncErr identifies. -/
def SyncErr.projectID : SyncErr → String
  | .fetchFailed pid _ _ => pid
  | .storeFailed _ pid _ _ => pid
  | .markStaleFailed pid _ => pid

/-- Outcome of the inner pagination loop of FetchAndStoreClusters: done with
the processed count, the clock after the loop and the calls made; fail with
the wrapped error and the calls made; spin when the fuel bound ran out (the
Go loop, which has no such bound, has not exited within that many
iterations). -/
inductive PageLoopResult where
  | done (processed : Nat) (clock : Nat) (events : List Event)
  | fail (e : SyncErr) (events : List Event)
  | spin (events : List Event)
deriving DecidableEq, Repr

/-- The inner for-loop of FetchAndStoreClusters: fetch a page, store it, add
its size to processed, exit once processed >= total, else advance to the
next page. fuel bounds the number of iterations modelled. -/
def pageLoop (env : SyncEnv) (projectID : String) (pageSize : Int) :
    Nat → Nat → Nat → Nat → PageLoopResult
  | 0, _, _, _ => .spin []
  | fuel + 1, page, processed, clock =>
    match env.fetchClusters projectID page pageSize with
    | .error cause =>
        .fail (.fetchFailed projectID pageSize cause)
          [⟨clock, .fetchCall projectID page pageSize⟩]
    | .ok (clusters, total) =>
      match env.storeClusters clusters with
      | .error cause =>
          .fail (.storeFailed clusters.length projectID pageSize cause)
            [⟨clock, .fetchCall projectID page pageSize⟩, ⟨clock + 1, .storeCall clusters⟩]
      | .ok _ =>
        let processed2 := processed + clusters.length
        if (processed2 : Int) ≥ total then
          .done processed2 (clock + 2)
            [⟨clock, .fetchCall projectID page pageSize⟩, ⟨clock + 1, .storeCall clusters⟩]
        else
          match pageLoop env projectID pageSize fuel (page + 1) processed2 (clock + 2) with
          | .done p c evs =>
              .done p c (⟨clock, .fetchCall projectID page pageSize⟩ ::
                ⟨clock + 1, .storeCall clusters⟩ :: evs)
          | .fail e evs =>
              .fail e (⟨clock, .fetchCall projectID page pageSize⟩ ::
                ⟨clock + 1, .storeCall clusters⟩ :: evs)
          | .spin evs =>
              .spin (⟨clock, .fetchCall projectID page pageSize⟩ ::
                ⟨clock + 1, .storeCall clusters⟩ :: evs)

/-- Outcome of one iteration of the outer loop of FetchAndStoreClusters
(one project). -/
inductive ProjOutcome where
  | ok (processed : Nat) (deleted : Int) (clock : Nat) (events : List Event)
  | fail (e : SyncErr) (events : List Event)
  | spin (events : List Event)
deriving DecidableEq, Repr

/-- The body of the outer loop of FetchAndStoreClusters for one project:
capture syncStartTime (the clock, advancing it), run the pagination loop
from page 1 with processed 0, then call MarkStaleClustersAsDeleted with the
captured epoch. -/
def processProject (env : SyncEnv) (projectID : String) (pageSize : Int)
    (fuel clock : Nat) : ProjOutcome :=
  let syncEpoch := clock
  match pageLoop env projectID pageSize fuel 1 0 (clock + 1) with
  | .spin evs => .spin evs
  | .fail e evs => .fail e evs
  | .done processed clock2 evs =>
    match env.markStale projectID syncEpoch with
    | .error cause =>
        .fail (.markStaleFailed projectID cause)
          (evs ++ [⟨clock2, .markStaleCall projectID syncEpoch⟩])
    | .ok deleted =>
        .ok processed deleted (clock2 + 1)
          (evs ++ [⟨clock2, .markStaleCall projectID syncEpoch⟩])

/-- The value FetchAndStoreClusters returns: the three summary counters and
the error of Go's four-component return. -/
structure GoReturn where
  projects : Nat
  clusters : Nat
  deleted : Int
  err : Option SyncErr
deriving DecidableEq, Repr

/-- The outer loop of FetchAndStoreClusters over the project IDs, threading
the three accumulators; on any failure it returns 0, 0, 0 and the error.
The second component is none when the fuel bound ran out mid-project. -/
def runProjects (env : SyncEnv) (pageSize : Int) (fuel : Nat) :
    List String → Nat → Nat → Nat → Int → List Event × Option GoReturn
  | [], _, tp, tc, td => ([], some ⟨tp, tc, td, none⟩)
  | pid :: rest, clock, tp, tc, td =>
    match processProject env pid pageSize fuel clock with
    | .spin evs => (evs, none)
    | .fail e evs => (evs, some ⟨0, 0, 0, some e⟩)
    | .ok processed deleted clock2 evs =>
      let r := runProjects env pageSize fuel rest clock2 (tp + 1) (tc + processed) (td + deleted)
      (evs ++ r.1, r.2)

/-- clusterService.FetchAndStoreClusters, under a fuel bound on each
project's pagination loop and a starting clock. -/
def fetchAndStoreClusters (env : SyncEnv) (projectIDs : List String)
    (pageSize : Int) (fuel clock : Nat) : List Event × Option GoReturn :=
  runProjects env pageSize fuel projectIDs clock 0 0 0

/-- Model of aws.ToString on a possibly-nil string pointer. -/
def awsToString (s : Option String) : String := s.getD ""

/-- One EC2 route of a route table: destination CIDR block and VPC peering
connection id, both possibly absent. -/
structure Route where
  destinationCidrBlock : Option String
  vpcPeeringConnectionId : Option String
deriving DecidableEq, Repr

/-- An EC2 resource tag. -/
structure Tag where
  key : Option String
  value : Option String
deriving DecidableEq, Repr

/-- An EC2 route table of the target VPC. -/
structure RouteTable where
  routeTableId : Option String
  routes : List Route
  tags : List Tag
deriving DecidableEq, Repr

/-- util.GetNameFromTags: the value of the first tag whose key
lower-cases to "name", else the empty string. -/
def getNameFromTags : List Tag → String
  | [] => ""
  | tag :: rest =>
    if (awsToString tag.key).toLower = "name" then awsToString tag.value
    else getNameFromTags rest

/-- The route-scanning loop of UpdateRoutes over one table's routes: stop at
the first route whose destination CIDR equals cidr, and report (found,
updateNeeded, currentPeerID) exactly as the Go flags end up. -/
def scanRoutes (cidr peerID : String) : List Route → Bool × Bool × String
  | [] => (false, false, "")
  | r :: rest =>
    if awsToString r.destinationCidrBlock = cidr then
      match r.vpcPeeringConnectionId with
      | none => (true, true, "unset")
      | some p => if p ≠ peerID then (true, true, p) else (true, false, "")
    else scanRoutes cidr peerID rest

/-- The EC2 mutation calls UpdateRoutes can issue, as injectable effects:
CreateRoute and ReplaceRoute, taking route table ID, CIDR and peer ID. -/
structure RouteEnv where
  createRoute : String → String → String → Except String Unit
  replaceRoute : String → String → String → Except String Unit

/-- What UpdateRoutes did (or reported it would do) for one route table. -/
inductive RouteEvent where
  | createdRoute (name rtbID cidr peerID : String)
  | wouldCreate (name rtbID cidr peerID : String)
  | replacedRoute (name rtbID cidr oldPeerID newPeerID : String)
  | wouldReplace (name rtbID cidr oldPeerID newPeerID : String)
  | skipped (name rtbID cidr peerID : String)
deriving DecidableEq, Repr

/-- The wrapped errors UpdateRoutes returns on a failed mutation, naming the
CIDR, the table and the underlying cause. -/
inductive RouteErr where
  | createFailed (cidr name rtbID cause : String)
  | replaceFailed (cidr name rtbID cause : String)
deriving DecidableEq, Repr

/-- The per-table loop of vpcrtb.UpdateRoutes: classify each table by the
scan flags, then create the route (not found), replace it (found but the
peer is absent or different) or skip it; in dry-run mode report instead of
mutating; a failed mutation aborts the remaining tables. -/
def updateRoutes (env : RouteEnv) (cidr peerID : String) (dryRun : Bool) :
    List RouteTable → List RouteEvent × Option RouteErr
  | [] => ([], none)
  | rtb :: rest =>
    let rtbID := awsToString rtb.routeTableId
    let scan := scanRoutes cidr peerID rtb.routes
    let rtbName := getNameFromTags rtb.tags
    if scan.1 = false then
      if dryRun then
        let r := updateRoutes env cidr peerID dryRun rest
        (.wouldCreate rtbName rtbID cidr peerID :: r.1, r.2)
      else
        match env.createRoute rtbID cidr peerID with
        | .error cause => ([], some (.createFailed cidr rtbName rtbID cause))
        | .ok _ =>
          let r := updateRoutes env cidr peerID dryRun rest
          (.createdRoute rtbName rtbID cidr peerID :: r.1, r.2)
    else if scan.2.1 then
      if dryRun then
        let r := updateRoutes env cidr peerID dryRun rest
        (.wouldReplace rtbName rtbID cidr scan.2.2 peerID :: r.1, r.2)
      else
        match env.replaceRoute rtbID cidr peerID with
        | .error cause => ([], some (.replaceFailed cidr rtbName rtbID cause))
        | .ok _ =>
          let r := updateRoutes env cidr peerID dryRun rest
          (.replacedRoute rtbName rtbID cidr scan.2.2 peerID :: r.1, r.2)
    else
      let r := updateRoutes env cidr peerID dryRun rest
      (.skipped rtbName rtbID cidr peerID :: r.1, r.2)

/-- Specification-side helper: the first route of a table matching the
destination CIDR (a table has at most one active route per CIDR, so this is
the route for that CIDR when present). -/
def firstMatchingRoute (cidr : String) (routes : List Route) : Option Route :=
  routes.find? (fun r => awsToString r.destinationCidrBlock = cidr)

/-- Specification-side tri-state classification of one route table, written
from the spec's words: MISSING when no route for the CIDR exists, MISMATCHED
(carrying the previous next-hop, "unset" when absent) when the route's
next-hop is absent or differs, MATCHING otherwise. -/
inductive RouteClass where
  | missing
  | mismatched (previousPeerID : String)
  | matching
deriving DecidableEq, Repr

/-- Specification-side classification of one table. -/
def classifyTable (cidr peerID : String) (rtb : RouteTable) : RouteClass :=
  match firstMatchingRoute cidr rtb.routes with
  | none => .missing
  | some r =>
    match r.vpcPeeringConnectionId with
    | none => .mismatched "unset"
    | some p => if p = peerID then .matching else .mismatched p

/-- Specification-side per-table report for a real (mutating) run in which
every mutation succeeds. -/
def tableAction (cidr peerID : String) (rtb : RouteTable) : RouteEvent :=
  let rtbName := getNameFromTags rtb.tags
  let rtbID := awsToString rtb.routeTableId
  match classifyTable cidr peerID rtb with
  | .missing => .createdRoute rtbName rtbID cidr peerID
  | .mismatched old => .replacedRoute rtbName rtbID cidr old peerID
  | .matching => .skipped rtbName rtbID cidr peerID

/-- Specification-side per-table report for a dry run. -/
def tableDryReport (cidr peerID : String) (rtb : RouteTable) : RouteEvent :=
  let rtbName := getNameFromTags rtb.tags
  let rtbID := awsToString rtb.routeTableId
  match classifyTable cidr peerID rtb with
  | .missing => .wouldCreate rtbName rtbID cidr peerID
  | .mismatched old => .wouldReplace rtbName rtbID cidr old peerID
  | .matching => .skipped rtbName rtbID cidr peerID

/-- Whether a RouteEvent records an actual mutation (a CreateRoute or
ReplaceRoute call that was issued). -/
def RouteEvent.isMutation : RouteEvent → Bool
  | .createdRoute _ _ _ _ => true
  | .replacedRoute _ _ _ _ _ => true
  | _ => false

/-- Whether a RouteEvent is a create (an issued or reported CreateRoute). -/
def RouteEvent.isCreate : RouteEvent → Bool
  | .createdRoute _ _ _ _ => true
  | .wouldCreate _ _ _ _ => true
  | _ => false

/-- The id of the item a store error names. -/
def StoreErr.itemID : StoreErr → String
  | .invalidTimestamp _ i => i
  | .upsertFailed i _ => i

/-- Claim C4, helper: the WHERE clause of MarkStaleClustersAsDeleted, stated
from the claim's words. -/
def staleCond (projectID : String) (syncedAt : Nat) (r : ClusterRow) : Bool :=
  decide (r.projectID = projectID ∧ r.updatedAt < syncedAt ∧ r.isDeleted = false)

/-- Claim C4: MarkStaleClustersAsDeleted marks as deleted exactly the rows
under the parent key whose updated_at is strictly earlier than the sync
epoch and that are not already deleted — setting is_deleted and deleted_at —
leaves every other row unchanged, and returns the count of newly marked
rows. -/
theorem mark_stale_exactly_stale (projectID : String) (syncedAt now : Nat)
    (db : List ClusterRow) :
    (markStaleClustersAsDeleted projectID syncedAt now db).1 =
      db.map (fun r =>
        if staleCond projectID syncedAt r then
          { r with isDeleted := true, deletedAt := some now }
        else r) ∧
    (markStaleClustersAsDeleted projectID syncedAt now db).2 =
      (db.filter (staleCond projectID syncedAt)).length := by
  induction db with
  | nil => exact ⟨rfl, rfl⟩
  | cons r rest ih =>
    simp only [markStaleClustersAsDeleted, List.map_cons, List.filter_cons]
    by_cases h : r.projectID = projectID ∧ r.updatedAt < syncedAt ∧ r.isDeleted = false
    · have hb : staleCond projectID syncedAt r = true := decide_eq_true h
      rw [if_pos h]
      refine ⟨?_, ?_⟩ <;> simp [hb, ih.1, ih.2]
    · have hb : staleCond projectID syncedAt r = false := decide_eq_false h
      rw [if_neg h]
      refine ⟨?_, ?_⟩ <;> simp [hb, ih.1, ih.2]

/-- Claim C5, helper: behavior of the per-item store loop, by induction over
the remaining batch. -/
theorem storeClustersLoop_atomic
    (impl : List ClusterRow → UpsertClusterParams → Except String (List ClusterRow))
    (orig : List ClusterRow) :
    ∀ rest tx,
      (storeClustersLoop impl orig rest tx).beganTx = true ∧
      ((storeClustersLoop impl orig rest tx).err = none →
        (storeClustersLoop impl orig rest tx).committed = true ∧
        (storeClustersLoop impl orig rest tx).rolledBack = false) ∧
      (∀ e, (storeClustersLoop impl orig rest tx).err = some e →
        (storeClustersLoop impl orig rest tx).db = orig ∧
        (storeClustersLoop impl orig rest tx).committed = false ∧
        ∃ c ∈ rest, c.id = e.itemID) ∧
      (∀ i cause,
        (storeClustersLoop impl orig rest tx).err = some (.upsertFailed i cause) →
        (storeClustersLoop impl orig rest tx).rolledBack = true) := by
  intro rest
  induction rest with
  | nil =>
    intro tx
    refine ⟨rfl, fun _ => ⟨rfl, rfl⟩, ?_, ?_⟩
    · intro e he
      cases he
    · intro i cause he
      cases he
  | cons c rest ih =>
    intro tx
    cases hp : parseInt64 c.createTimestamp with
    | none =>
      simp only [storeClustersLoop, hp]
      refine ⟨by trivial, ?_, ?_, ?_⟩
      · intro hn
        cases hn
      · intro e he
        refine ⟨by trivial, by trivial, c, List.mem_cons_self c rest, ?_⟩
        cases he
        rfl
      · intro i cause he
        cases he
    | some ts =>
      cases hu : impl tx ⟨c.id, c.projectID, c.name, c.clusterType, c.cloudProvider,
          c.region, ts, c.status.clusterStatus, c.status.tidbVersion⟩ with
      | error cause =>
        simp only [storeClustersLoop, hp, hu]
        refine ⟨by trivial, ?_, ?_, ?_⟩
        · intro hn
          cases hn
        · intro e he
          refine ⟨by trivial, by trivial, c, List.mem_cons_self c rest, ?_⟩
          cases he
          rfl
        · intro i cause2 he
          trivial
      | ok tx2 =>
        simp only [storeClustersLoop, hp, hu]
        obtain ⟨h1, h2, h3, h4⟩ := ih tx2
        refine ⟨h1, h2, fun e he => ?_, h4⟩
        obtain ⟨hdb, hcm, c2, hc2, hid⟩ := h3 e he
        exact ⟨hdb, hcm, c2, List.mem_cons_of_mem c hc2, hid⟩

/-- Claim C5: StoreClusters is a no-op without a transaction on an empty
batch; a non-empty batch runs in one transaction; on any item failure the
table is left unchanged and nothing commits (with an explicit rollback when
the failing step is an upsert), and the error names an item of the batch;
when every item succeeds the transaction commits with no error. -/
theorem store_clusters_atomic
    (impl : List ClusterRow → UpsertClusterParams → Except String (List ClusterRow))
    (db : List ClusterRow) (clusters : List Cluster) :
    (clusters = [] → storeClusters impl db clusters = ⟨db, false, false, false, none⟩) ∧
    (clusters ≠ [] → (storeClusters impl db clusters).beganTx = true) ∧
    ((storeClusters impl db clusters).err = none → clusters ≠ [] →
      (storeClusters impl db clusters).committed = true ∧
      (storeClusters impl db clusters).rolledBack = false) ∧
    (∀ e, (storeClusters impl db clusters).err = some e →
      (storeClusters impl db clusters).db = db ∧
      (storeClusters impl db clusters).committed = false ∧
      ∃ c ∈ clusters, c.id = e.itemID) ∧
    (∀ i cause, (storeClusters impl db clusters).err = some (.upsertFailed i cause) →
      (storeClusters impl db clusters).rolledBack = true) := by
  cases clusters with
  | nil =>
    refine ⟨fun _ => rfl, fun h => absurd rfl h, fun _ h => absurd rfl h,
      fun e he => ?_, fun i cause he => ?_⟩
    · simp [storeClusters] at he
    · simp [storeClusters] at he
  | cons c rest =>
    obtain ⟨h1, h2, h3, h4⟩ := storeClustersLoop_atomic impl db (c :: rest) db
    refine ⟨?_, ?_, ?_, ?_, ?_⟩
    · intro h
      cases h
    · intro _
      exact h1
    · intro he _
      exact h2 he
    · exact h3
    · exact h4

/-- Claim C5, witness: a failing upsert on a one-item batch leaves the table
unchanged, commits nothing, and the error names the item. -/
theorem store_clusters_atomic_witness :
    (storeClusters (fun _ _ => .error "dup") [] [⟨"c1", "p1", "n", "t", "aws", "r",
        "123", ⟨"v", "s"⟩⟩]).db = [] ∧
    (storeClusters (fun _ _ => .error "dup") [] [⟨"c1", "p1", "n", "t", "aws", "r",
        "123", ⟨"v", "s"⟩⟩]).committed = false ∧
    ∃ c ∈ [(⟨"c1", "p1", "n", "t", "aws", "r", "123", ⟨"v", "s"⟩⟩ : Cluster)],
      c.id = (StoreErr.upsertFailed "c1" "dup").itemID := by
  exact (store_clusters_atomic (fun _ _ => .error "dup") []
    [⟨"c1", "p1", "n", "t", "aws", "r", "123", ⟨"v", "s"⟩⟩]).2.2.2.1
    (.upsertFailed "c1" "dup") (by decide)

/-- Claim C9, helper: applyClusterUpdate never changes the primary key. -/
theorem applyClusterUpdate_id (r : ClusterRow) (p : UpsertClusterParams) (n : Nat) :
    (applyClusterUpdate r p n).id = r.id := by
  unfold applyClusterUpdate
  split <;> rfl

/-- Claim C9, helper: after applyClusterUpdate every column of the update
list holds the incoming value. -/
theorem applyClusterUpdate_overwrites (r : ClusterRow) (p : UpsertClusterParams) (n : Nat) :
    (applyClusterUpdate r p n).projectID = p.projectID ∧
    (applyClusterUpdate r p n).name = p.name ∧
    (applyClusterUpdate r p n).clusterType = p.clusterType ∧
    (applyClusterUpdate r p n).cloudProvider = p.cloudProvider ∧
    (applyClusterUpdate r p n).region = p.region ∧
    (applyClusterUpdate r p n).createTimestamp = p.createTimestamp ∧
    (applyClusterUpdate r p n).tidbVersion = p.tidbVersion ∧
    (applyClusterUpdate r p n).clusterStatus = p.clusterStatus := by
  unfold applyClusterUpdate
  split
  · next h =>
    simp only [clusterRowUnchanged, Bool.and_eq_true, decide_eq_true_eq] at h
    obtain ⟨⟨⟨⟨⟨⟨⟨h1, h2⟩, h3⟩, h4⟩, h5⟩, h6⟩, h7⟩, h8⟩ := h
    exact ⟨h1, h2, h3, h4, h5, h6, h7, h8⟩
  · exact ⟨rfl, rfl, rfl, rfl, rfl, rfl, rfl, rfl⟩

/-- Claim C9, helper: a row just written by applyClusterUpdate compares
unchanged against the same params. -/
theorem clusterRowUnchanged_after (r : ClusterRow) (p : UpsertClusterParams) (n : Nat) :
    clusterRowUnchanged (applyClusterUpdate r p n) p = true := by
  have h := applyClusterUpdate_overwrites r p n
  simp [clusterRowUnchanged, h.1, h.2.1, h.2.2.1, h.2.2.2.1, h.2.2.2.2.1,
    h.2.2.2.2.2.1, h.2.2.2.2.2.2.1, h.2.2.2.2.2.2.2]

/-- Claim C9, helper: a freshly inserted row compares unchanged against its
own params. -/
theorem clusterRowUnchanged_new (p : UpsertClusterParams) (n : Nat) :
    clusterRowUnchanged (newClusterRow p n) p = true := by
  simp [clusterRowUnchanged, newClusterRow]

/-- Claim C9, helper: updating a row that already holds the incoming values
is the identity. -/
theorem applyClusterUpdate_noop (r : ClusterRow) (p : UpsertClusterParams) (n : Nat)
    (h : clusterRowUnchanged r p = true) : applyClusterUpdate r p n = r := by
  unfold applyClusterUpdate
  rw [if_pos h]

/-- Claim C9, helper: the SQL upsert is idempotent on the table, whatever
the CURRENT_TIMESTAMP of each call. -/
theorem upsertCluster_idem (db : List ClusterRow) (p : UpsertClusterParams)
    (now1 now2 : Nat) :
    upsertCluster (upsertCluster db p now1) p now2 = upsertCluster db p now1 := by
  unfold upsertCluster
  by_cases h : db.any (fun r => r.id = p.id)
  · rw [if_pos h, if_pos, List.map_map]
    · apply List.map_congr_left
      intro r hr
      by_cases hid : r.id = p.id
      · simp only [Function.comp_apply, hid, if_pos, applyClusterUpdate_id,
          applyClusterUpdate_noop _ _ _ (clusterRowUnchanged_after r p now1)]
      · simp only [Function.comp_apply, hid, if_neg, ite_false]
    · rw [List.any_eq_true] at h ⊢
      obtain ⟨r, hr, hid⟩ := h
      refine ⟨if r.id = p.id then applyClusterUpdate r p now1 else r, List.mem_map_of_mem _ hr, ?_⟩
      rw [decide_eq_true_eq] at hid ⊢
      rw [if_pos hid, applyClusterUpdate_id, hid]
  · rw [if_neg h, if_pos, List.map_append]
    · have hdb : db.map (fun r => if r.id = p.id then applyClusterUpdate r p now2 else r) = db := by
        have hall : ∀ r ∈ db, ¬(r.id = p.id) := by
          intro r hr heq
          exact h (List.any_eq_true.mpr ⟨r, hr, decide_eq_true heq⟩)
        calc db.map (fun r => if r.id = p.id then applyClusterUpdate r p now2 else r)
            = db.map id := List.map_congr_left (fun r hr => if_neg (hall r hr))
          _ = db := List.map_id db
      rw [hdb]
      simp [applyClusterUpdate_noop _ _ _ (clusterRowUnchanged_new p now1)]
    · rw [List.any_eq_true]
      exact ⟨newClusterRow p now1, List.mem_append_right _ (List.mem_singleton.mpr rfl),
        decide_eq_true rfl⟩

/-- Claim C9, helper: every row of the upserted table that carries the
upserted key holds the incoming values in every update-list column. -/
theorem upsertCluster_overwrites (db : List ClusterRow) (p : UpsertClusterParams) (now : Nat) :
    ∀ row ∈ upsertCluster db p now, row.id = p.id →
      row.projectID = p.projectID ∧ row.name = p.name ∧
      row.clusterType = p.clusterType ∧ row.cloudProvider = p.cloudProvider ∧
      row.region = p.region ∧ row.createTimestamp = p.createTimestamp ∧
      row.tidbVersion = p.tidbVersion ∧ row.clusterStatus = p.clusterStatus := by
  intro row hrow hid
  unfold upsertCluster at hrow
  by_cases h : db.any (fun r => r.id = p.id)
  · rw [if_pos h] at hrow
    obtain ⟨r, hr, hfr⟩ := List.mem_map.mp hrow
    by_cases hrid : r.id = p.id
    · rw [if_pos hrid] at hfr
      rw [← hfr]
      exact applyClusterUpdate_overwrites r p now
    · rw [if_neg hrid] at hfr
      exact absurd (hfr ▸ hid) hrid
  · rw [if_neg h] at hrow
    rcases List.mem_append.mp hrow with hmem | hmem
    · exact absurd (List.any_eq_true.mpr ⟨row, hmem, decide_eq_true hid⟩) h
    · rw [List.mem_singleton.mp hmem]
      exact ⟨rfl, rfl, rfl, rfl, rfl, rfl, rfl, rfl⟩

/-- Claim C9: storing one item is an idempotent upsert: the first call
commits with no error and overwrites every mutable column of the row under
that key with the incoming value; storing the same item again is its own
committed, error-free transaction that leaves the table field-for-field
identical. -/
theorem store_clusters_idempotent (db : List ClusterRow) (c : Cluster)
    (now1 now2 : Nat) (ts : Int) (hts : parseInt64 c.createTimestamp = some ts) :
    (storeClusters (pureClusterUpsert now1) db [c]).err = none ∧
    (storeClusters (pureClusterUpsert now1) db [c]).committed = true ∧
    storeClusters (pureClusterUpsert now2)
        (storeClusters (pureClusterUpsert now1) db [c]).db [c] =
      ⟨(storeClusters (pureClusterUpsert now1) db [c]).db, true, true, false, none⟩ ∧
    (∀ row ∈ (storeClusters (pureClusterUpsert now1) db [c]).db, row.id = c.id →
      row.projectID = c.projectID ∧ row.name = c.name ∧
      row.clusterType = c.clusterType ∧ row.cloudProvider = c.cloudProvider ∧
      row.region = c.region ∧ row.createTimestamp = ts ∧
      row.tidbVersion = c.status.tidbVersion ∧
      row.clusterStatus = c.status.clusterStatus) := by
  have hstep : ∀ (n : Nat) (db0 : List ClusterRow),
      storeClusters (pureClusterUpsert n) db0 [c] =
        ⟨upsertCluster db0 ⟨c.id, c.projectID, c.name, c.clusterType, c.cloudProvider,
          c.region, ts, c.status.clusterStatus, c.status.tidbVersion⟩ n,
         true, true, false, none⟩ := by
    intro n db0
    simp [storeClusters, storeClustersLoop, hts, pureClusterUpsert]
  refine ⟨by rw [hstep], by rw [hstep], ?_, ?_⟩
  · simp only [hstep]
    exact congrArg (fun d => StoreOutcome.mk d true true false none)
      (upsertCluster_idem db _ now1 now2)
  · rw [hstep]
    exact upsertCluster_overwrites db _ now1

/-- Claim C9, witness: a concrete one-item batch stored twice. -/
theorem store_clusters_idempotent_witness :
    (storeClusters (pureClusterUpsert 1) [] [⟨"c1", "p1", "n", "t", "aws", "r", "42",
        ⟨"v", "s"⟩⟩]).err = none ∧
    (storeClusters (pureClusterUpsert 1) [] [⟨"c1", "p1", "n", "t", "aws", "r", "42",
        ⟨"v", "s"⟩⟩]).committed = true ∧
    storeClusters (pureClusterUpsert 2)
        (storeClusters (pureClusterUpsert 1) [] [⟨"c1", "p1", "n", "t", "aws", "r", "42",
          ⟨"v", "s"⟩⟩]).db [⟨"c1", "p1", "n", "t", "aws", "r", "42", ⟨"v", "s"⟩⟩] =
      ⟨(storeClusters (pureClusterUpsert 1) [] [⟨"c1", "p1", "n", "t", "aws", "r", "42",
          ⟨"v", "s"⟩⟩]).db, true, true, false, none⟩ ∧
    (∀ row ∈ (storeClusters (pureClusterUpsert 1) [] [⟨"c1", "p1", "n", "t", "aws", "r",
        "42", ⟨"v", "s"⟩⟩]).db, row.id = "c1" →
      row.projectID = "p1" ∧ row.name = "n" ∧ row.clusterType = "t" ∧
      row.cloudProvider = "aws" ∧ row.region = "r" ∧ row.createTimestamp = 42 ∧
      row.tidbVersion = "v" ∧ row.clusterStatus = "s") :=
  store_clusters_idempotent [] ⟨"c1", "p1", "n", "t", "aws", "r", "42", ⟨"v", "s"⟩⟩
    1 2 42 (by decide)

/-- Claim C10, helper: applyProjectUpdate overwrites every column of the
update list with the incoming value. -/
theorem applyProjectUpdate_overwrites (r : ProjectRow) (p : UpsertProjectParams) (n : Nat) :
    (applyProjectUpdate r p n).orgID = p.orgID ∧
    (applyProjectUpdate r p n).name = p.name ∧
    (applyProjectUpdate r p n).clusterCount = p.clusterCount ∧
    (applyProjectUpdate r p n).userCount = p.userCount ∧
    (applyProjectUpdate r p n).createTimestamp = p.createTimestamp ∧
    (applyProjectUpdate r p n).awsCmekEnabled = p.awsCmekEnabled := by
  unfold applyProjectUpdate
  split
  · next h =>
    simp only [projectRowUnchanged, Bool.and_eq_true, decide_eq_true_eq] at h
    obtain ⟨⟨⟨⟨⟨h1, h2⟩, h3⟩, h4⟩, h5⟩, h6⟩ := h
    exact ⟨h1, h2, h3, h4, h5, h6⟩
  · exact ⟨rfl, rfl, rfl, rfl, rfl, rfl⟩

/-- Claim C10, helper: applyProjectUpdate never changes the primary key. -/
theorem applyProjectUpdate_id (r : ProjectRow) (p : UpsertProjectParams) (n : Nat) :
    (applyProjectUpdate r p n).id = r.id := by
  unfold applyProjectUpdate
  split <;> rfl

/-- Claim C10, helper: after UpsertProject the table holds a row under the
upserted key whose create_timestamp is the incoming value. -/
theorem upsertProject_has_row (db : List ProjectRow) (p : UpsertProjectParams) (now : Nat) :
    ∃ row ∈ upsertProject db p now, row.id = p.id ∧
      row.createTimestamp = p.createTimestamp := by
  unfold upsertProject
  by_cases h : db.any (fun r => r.id = p.id)
  · rw [if_pos h]
    rw [List.any_eq_true] at h
    obtain ⟨r, hr, hid⟩ := h
    rw [decide_eq_true_eq] at hid
    refine ⟨applyProjectUpdate r p now, ?_, ?_, ?_⟩
    · refine List.mem_map.mpr ⟨r, hr, ?_⟩
      rw [if_pos hid]
    · rw [applyProjectUpdate_id, hid]
    · exact (applyProjectUpdate_overwrites r p now).2.2.2.2.1
  · rw [if_neg h]
    exact ⟨newProjectRow p now,
      List.mem_append_right _ (List.mem_singleton.mpr rfl), rfl, rfl⟩

/-- Claim C10, helper: StoreClusters aborts at the first cluster of the
batch whose create_timestamp does not parse, returning the original table
with the transaction neither committed nor explicitly rolled back, and an
error naming that cluster. -/
theorem storeClustersLoop_bad_timestamp (now : Nat) (orig : List ClusterRow) :
    ∀ (pre : List Cluster) (c : Cluster) (post : List Cluster) (tx : List ClusterRow),
      (∀ c2 ∈ pre, (parseInt64 c2.createTimestamp).isSome = true) →
      parseInt64 c.createTimestamp = none →
      storeClustersLoop (pureClusterUpsert now) orig (pre ++ c :: post) tx =
        ⟨orig, true, false, false, some (.invalidTimestamp c.name c.id)⟩ := by
  intro pre
  induction pre with
  | nil =>
    intro c post tx _ hc
    simp [storeClustersLoop, hc]
  | cons c2 rest ih =>
    intro c post tx hpre hc
    obtain ⟨ts2, hts2⟩ := Option.isSome_iff_exists.mp
      (hpre c2 (List.mem_cons_self c2 rest))
    simp only [List.cons_append, storeClustersLoop, hts2, pureClusterUpsert]
    exact ih c post _ (fun c3 h3 => hpre c3 (List.mem_cons_of_mem c2 h3)) hc

/-- Claim C10: a cluster batch containing an item whose CreateTimestamp does
not parse as a base-10 64-bit integer fails with an error naming that item,
committing nothing and issuing no explicit rollback, while StoreProjects
silently substitutes 0 for an unparsable project CreateTimestamp and stores
the batch without error. -/
theorem timestamp_parse_contrast :
    (∀ (now : Nat) (db : List ClusterRow) (pre : List Cluster) (c : Cluster)
        (post : List Cluster),
      (∀ c2 ∈ pre, (parseInt64 c2.createTimestamp).isSome = true) →
      parseInt64 c.createTimestamp = none →
      storeClusters (pureClusterUpsert now) db (pre ++ c :: post) =
        ⟨db, true, false, false, some (.invalidTimestamp c.name c.id)⟩) ∧
    (∀ (now : Nat) (db : List ProjectRow) (pr : Project),
      parseInt64 pr.createTimestamp = none →
      (storeProjects (pureProjectUpsert now) db [pr]).err = none ∧
      (storeProjects (pureProjectUpsert now) db [pr]).committed = true ∧
      ∃ row ∈ (storeProjects (pureProjectUpsert now) db [pr]).db,
        row.id = pr.id ∧ row.createTimestamp = 0) := by
  constructor
  · intro now db pre c post hpre hc
    have hne : (pre ++ c :: post).isEmpty = false := by
      cases pre <;> rfl
    rw [storeClusters, hne]
    exact storeClustersLoop_bad_timestamp now db pre c post db hpre hc
  · intro now db pr hp
    have hrun : storeProjects (pureProjectUpsert now) db [pr] =
        ⟨upsertProject db ⟨pr.id, pr.orgID, pr.name, wrap32 pr.clusterCount,
          wrap32 pr.userCount, 0, pr.awsCmekEnabled⟩ now, true, true, false, none⟩ := by
      simp [storeProjects, storeProjectsLoop, hp, pureProjectUpsert]
    rw [hrun]
    exact ⟨rfl, rfl, upsertProject_has_row db _ now⟩

/-- Claim C10, witness: the unparsable timestamp "x" fails a cluster batch
but not a project batch. -/
theorem timestamp_parse_contrast_witness :
    storeClusters (pureClusterUpsert 0) [] ([] ++ (⟨"c1", "p1", "n", "t", "aws", "r",
        "x", ⟨"v", "s"⟩⟩ : Cluster) :: []) =
      ⟨[], true, false, false, some (.invalidTimestamp "n" "c1")⟩ ∧
    ((storeProjects (pureProjectUpsert 0) []
        [⟨"p1", "o1", "n", 1, 2, "x", false⟩]).err = none ∧
     (storeProjects (pureProjectUpsert 0) []
        [⟨"p1", "o1", "n", 1, 2, "x", false⟩]).committed = true ∧
     ∃ row ∈ (storeProjects (pureProjectUpsert 0) []
        [⟨"p1", "o1", "n", 1, 2, "x", false⟩]).db,
       row.id = "p1" ∧ row.createTimestamp = 0) := by
  constructor
  · exact timestamp_parse_contrast.1 0 [] [] ⟨"c1", "p1", "n", "t", "aws", "r", "x",
      ⟨"v", "s"⟩⟩ [] (by intro c2 h2; cases h2) (by decide)
  · exact timestamp_parse_contrast.2 0 [] ⟨"p1", "o1", "n", 1, 2, "x", false⟩ (by decide)

/-- Claims C7/C8, helper: the Go scanning loop over a table's routes agrees
with the first-matching-route characterization. -/
theorem scanRoutes_eq_find (cidr peerID : String) (routes : List Route) :
    scanRoutes cidr peerID routes =
      match firstMatchingRoute cidr routes with
      | none => (false, false, "")
      | some r =>
        match r.vpcPeeringConnectionId with
        | none => (true, true, "unset")
        | some p => if p ≠ peerID then (true, true, p) else (true, false, "") := by
  induction routes with
  | nil => rfl
  | cons r rest ih =>
    by_cases h : awsToString r.destinationCidrBlock = cidr
    · have h2 : firstMatchingRoute cidr (r :: rest) = some r := by
        simp [firstMatchingRoute, h]
      simp only [scanRoutes]
      rw [if_pos h, h2]
    · have h2 : firstMatchingRoute cidr (r :: rest) = firstMatchingRoute cidr rest := by
        simp [firstMatchingRoute, h]
      simp only [scanRoutes]
      rw [if_neg h, h2]
      exact ih

/-- Claim C7, helper: with every mutation succeeding and dry-run off,
UpdateRoutes acts on each table exactly as the per-table action function
prescribes and returns no error. -/
theorem updateRoutes_real_map (env : RouteEnv) (cidr peerID : String)
    (hc : ∀ a b c, env.createRoute a b c = .ok ())
    (hr : ∀ a b c, env.replaceRoute a b c = .ok ()) :
    ∀ tables : List RouteTable,
      updateRoutes env cidr peerID false tables =
        (tables.map (tableAction cidr peerID), none) := by
  intro tables
  induction tables with
  | nil => rfl
  | cons rtb rest ih =>
    have hscan := scanRoutes_eq_find cidr peerID rtb.routes
    cases hm : firstMatchingRoute cidr rtb.routes with
    | none =>
      simp only [hm] at hscan
      simp [updateRoutes, hscan, tableAction, classifyTable, hm, hc, ih]
    | some r =>
      simp only [hm] at hscan
      cases hpc : r.vpcPeeringConnectionId with
      | none =>
        simp only [hpc] at hscan
        simp [updateRoutes, hscan, tableAction, classifyTable, hm, hpc, hr, ih]
      | some p =>
        simp only [hpc] at hscan
        by_cases hp : p = peerID
        · rw [if_neg (fun hn => hn hp)] at hscan
          subst hp
          simp [updateRoutes, hscan, tableAction, classifyTable, hm, hpc, ih]
        · rw [if_pos hp] at hscan
          simp [updateRoutes, hscan, tableAction, classifyTable, hm, hpc, hp, hr, ih]

/-- Claim C7: the route reconciler is exactly the tri-state algorithm: with
mutations succeeding and dry-run off it performs, per table, the action of
tableAction, which creates when no route for the CIDR exists, replaces
(reporting the previous next-hop, "unset" when absent) when the next-hop is
absent or different, skips when the next-hop already matches, and never
creates for a CIDR already present. -/
theorem route_reconciler_tristate (env : RouteEnv) (cidr peerID : String)
    (tables : List RouteTable)
    (hc : ∀ a b c, env.createRoute a b c = .ok ())
    (hr : ∀ a b c, env.replaceRoute a b c = .ok ()) :
    updateRoutes env cidr peerID false tables =
      (tables.map (tableAction cidr peerID), none) ∧
    (∀ rtb : RouteTable, firstMatchingRoute cidr rtb.routes = none →
      tableAction cidr peerID rtb =
        .createdRoute (getNameFromTags rtb.tags) (awsToString rtb.routeTableId) cidr peerID) ∧
    (∀ (rtb : RouteTable) (r : Route), firstMatchingRoute cidr rtb.routes = some r →
      r.vpcPeeringConnectionId = none →
      tableAction cidr peerID rtb =
        .replacedRoute (getNameFromTags rtb.tags) (awsToString rtb.routeTableId)
          cidr "unset" peerID) ∧
    (∀ (rtb : RouteTable) (r : Route) (p : String),
      firstMatchingRoute cidr rtb.routes = some r →
      r.vpcPeeringConnectionId = some p → p ≠ peerID →
      tableAction cidr peerID rtb =
        .replacedRoute (getNameFromTags rtb.tags) (awsToString rtb.routeTableId)
          cidr p peerID) ∧
    (∀ (rtb : RouteTable) (r : Route), firstMatchingRoute cidr rtb.routes = some r →
      r.vpcPeeringConnectionId = some peerID →
      tableAction cidr peerID rtb =
        .skipped (getNameFromTags rtb.tags) (awsToString rtb.routeTableId) cidr peerID) ∧
    (∀ rtb : RouteTable, (firstMatchingRoute cidr rtb.routes).isSome = true →
      (tableAction cidr peerID rtb).isCreate = false) := by
  refine ⟨updateRoutes_real_map env cidr peerID hc hr tables, ?_, ?_, ?_, ?_, ?_⟩
  · intro rtb h
    simp [tableAction, classifyTable, h]
  · intro rtb r hm hpc
    simp [tableAction, classifyTable, hm, hpc]
  · intro rtb r p hm hpc hp
    simp [tableAction, classifyTable, hm, hpc, hp]
  · intro rtb r hm hpc
    simp [tableAction, classifyTable, hm, hpc]
  · intro rtb h
    obtain ⟨r, hm⟩ := Option.isSome_iff_exists.mp h
    cases hpc : r.vpcPeeringConnectionId with
    | none => simp [tableAction, classifyTable, hm, hpc, RouteEvent.isCreate]
    | some p =>
      by_cases hp : p = peerID
      · subst hp
        simp [tableAction, classifyTable, hm, hpc, RouteEvent.isCreate]
      · simp [tableAction, classifyTable, hm, hpc, hp, RouteEvent.isCreate]

/-- Claim C7, witness: a concrete always-succeeding mutation environment and
three tables, one per classification. -/
theorem route_reconciler_tristate_witness :
    updateRoutes ⟨fun _ _ _ => .ok (), fun _ _ _ => .ok ()⟩ "10.0.0.0/16" "pcx-B" false
        [⟨some "rtb-1", [], []⟩,
         ⟨some "rtb-2", [⟨some "10.0.0.0/16", some "pcx-A"⟩], []⟩,
         ⟨some "rtb-3", [⟨some "10.0.0.0/16", some "pcx-B"⟩], []⟩] =
      (List.map (tableAction "10.0.0.0/16" "pcx-B")
        [⟨some "rtb-1", [], []⟩,
         ⟨some "rtb-2", [⟨some "10.0.0.0/16", some "pcx-A"⟩], []⟩,
         ⟨some "rtb-3", [⟨some "10.0.0.0/16", some "pcx-B"⟩], []⟩], none) :=
  (route_reconciler_tristate ⟨fun _ _ _ => .ok (), fun _ _ _ => .ok ()⟩ "10.0.0.0/16"
    "pcx-B" _ (fun _ _ _ => rfl) (fun _ _ _ => rfl)).1

/-- Claim C8, helper: in dry-run mode UpdateRoutes reports per table exactly
the dry report, independently of the mutation environment, with no error. -/
theorem updateRoutes_dry_map (env : RouteEnv) (cidr peerID : String) :
    ∀ tables : List RouteTable,
      updateRoutes env cidr peerID true tables =
        (tables.map (tableDryReport cidr peerID), none) := by
  intro tables
  induction tables with
  | nil => rfl
  | cons rtb rest ih =>
    have hscan := scanRoutes_eq_find cidr peerID rtb.routes
    cases hm : firstMatchingRoute cidr rtb.routes with
    | none =>
      simp only [hm] at hscan
      simp [updateRoutes, hscan, tableDryReport, classifyTable, hm, ih]
    | some r =>
      simp only [hm] at hscan
      cases hpc : r.vpcPeeringConnectionId with
      | none =>
        simp only [hpc] at hscan
        simp [updateRoutes, hscan, tableDryReport, classifyTable, hm, hpc, ih]
      | some p =>
        simp only [hpc] at hscan
        by_cases hp : p = peerID
        · rw [if_neg (fun hn => hn hp)] at hscan
          subst hp
          simp [updateRoutes, hscan, tableDryReport, classifyTable, hm, hpc, ih]
        · rw [if_pos hp] at hscan
          simp [updateRoutes, hscan, tableDryReport, classifyTable, hm, hpc, hp, ih]

/-- Claim C8: with simulate on, UpdateRoutes issues no mutating call — its
result does not depend on the mutation environment at all and no mutation
event is produced — while still classifying and reporting one event per
table, would-be replaces carrying the old and the new next-hop and would-be
creates the new one. -/
theorem dry_run_never_mutates (env : RouteEnv) (cidr peerID : String)
    (tables : List RouteTable) :
    updateRoutes env cidr peerID true tables =
      (tables.map (tableDryReport cidr peerID), none) ∧
    (∀ env2 : RouteEnv,
      updateRoutes env2 cidr peerID true tables = updateRoutes env cidr peerID true tables) ∧
    (updateRoutes env cidr peerID true tables).1.length = tables.length ∧
    (∀ ev ∈ (updateRoutes env cidr peerID true tables).1, ev.isMutation = false) ∧
    (∀ rtb : RouteTable, classifyTable cidr peerID rtb = .missing →
      tableDryReport cidr peerID rtb =
        .wouldCreate (getNameFromTags rtb.tags) (awsToString rtb.routeTableId) cidr peerID) ∧
    (∀ (rtb : RouteTable) (old : String), classifyTable cidr peerID rtb = .mismatched old →
      tableDryReport cidr peerID rtb =
        .wouldReplace (getNameFromTags rtb.tags) (awsToString rtb.routeTableId)
          cidr old peerID) ∧
    (∀ rtb : RouteTable, classifyTable cidr peerID rtb = .matching →
      tableDryReport cidr peerID rtb =
        .skipped (getNameFromTags rtb.tags) (awsToString rtb.routeTableId) cidr peerID) := by
  have hmut : ∀ rtb : RouteTable, (tableDryReport cidr peerID rtb).isMutation = false := by
    intro rtb
    unfold tableDryReport
    cases classifyTable cidr peerID rtb <;> rfl
  refine ⟨updateRoutes_dry_map env cidr peerID tables, ?_, ?_, ?_, ?_, ?_, ?_⟩
  · intro env2
    rw [updateRoutes_dry_map env cidr peerID tables, updateRoutes_dry_map env2 cidr peerID tables]
  · rw [updateRoutes_dry_map env cidr peerID tables]
    exact List.length_map tables _
  · rw [updateRoutes_dry_map env cidr peerID tables]
    intro ev hev
    obtain ⟨rtb, _, hrtb⟩ := List.mem_map.mp hev
    rw [← hrtb]
    exact hmut rtb
  · intro rtb h
    simp [tableDryReport, h]
  · intro rtb old h
    simp [tableDryReport, h]
  · intro rtb h
    simp [tableDryReport, h]

/-- Claim C8, witness: a concrete dry run over three tables against an
always-failing mutation environment still reports everything and no error. -/
theorem dry_run_never_mutates_witness :
    updateRoutes ⟨fun _ _ _ => .error "boom", fun _ _ _ => .error "boom"⟩
        "10.0.0.0/16" "pcx-B" true
        [⟨some "rtb-1", [], []⟩,
         ⟨some "rtb-2", [⟨some "10.0.0.0/16", some "pcx-A"⟩], []⟩,
         ⟨some "rtb-3", [⟨some "10.0.0.0/16", some "pcx-B"⟩], []⟩] =
      (List.map (tableDryReport "10.0.0.0/16" "pcx-B")
        [⟨some "rtb-1", [], []⟩,
         ⟨some "rtb-2", [⟨some "10.0.0.0/16", some "pcx-A"⟩], []⟩,
         ⟨some "rtb-3", [⟨some "10.0.0.0/16", some "pcx-B"⟩], []⟩], none) :=
  (dry_run_never_mutates ⟨fun _ _ _ => .error "boom", fun _ _ _ => .error "boom"⟩
    "10.0.0.0/16" "pcx-B" _).1

/-- Claim C1: an environment whose fetcher answers every page with zero
items while reporting total 1, and whose store and stale marker always
succeed — the remote anomaly the spec says must abort the loop. -/
def emptyPageEnv : SyncEnv :=
  ⟨fun _ _ _ => .ok ([], 1), fun _ => .ok (), fun _ _ => .ok 0⟩

/-- Claim C1, helper: under emptyPageEnv the pagination loop never reaches
its exit condition: for every iteration bound it is still spinning. -/
theorem pageLoop_emptyPage_spins (pageSize : Int) :
    ∀ (fuel page clock : Nat), ∃ evs,
      pageLoop emptyPageEnv "p1" pageSize fuel page 0 clock = .spin evs := by
  intro fuel
  induction fuel with
  | zero => exact fun page clock => ⟨[], rfl⟩
  | succ fuel ih =>
    intro page clock
    obtain ⟨evs, hevs⟩ := ih (page + 1) (clock + 2)
    refine ⟨⟨clock, .fetchCall "p1" page pageSize⟩ ::
      ⟨clock + 1, .storeCall []⟩ :: evs, ?_⟩
    simp only [emptyPageEnv] at hevs
    simp only [pageLoop, emptyPageEnv]
    norm_num
    rw [hevs]

/-- Claim C1: the claim (and the spec) say an empty page with
processedCount < total must abort with an error instead of looping forever,
and that FetchAndStoreClusters terminates for every fetcher behavior; the
code has no such guard: under emptyPageEnv the run never completes, for
every iteration bound. -/
theorem fetch_and_store_clusters_never_terminates (pageSize : Int) :
    ∀ (fuel clock : Nat),
      (fetchAndStoreClusters emptyPageEnv ["p1"] pageSize fuel clock).2 = none := by
  intro fuel clock
  obtain ⟨evs, hevs⟩ := pageLoop_emptyPage_spins pageSize fuel 1 (clock + 1)
  simp only [fetchAndStoreClusters, runProjects, processProject, hevs]

/-- The calls recorded by a pagination-loop outcome. -/
def PageLoopResult.events : PageLoopResult → List Event
  | .done _ _ evs => evs
  | .fail _ evs => evs
  | .spin evs => evs

/-- Claims C3/C6, helper: every call the pagination loop makes is a fetch
for this project (with this page size) or a store, and is stamped no earlier
than the clock the loop started with. -/
theorem pageLoop_events_shape (env : SyncEnv) (pid : String) (ps : Int) :
    ∀ (fuel page processed clock : Nat),
      ∀ ev ∈ (pageLoop env pid ps fuel page processed clock).events,
        clock ≤ ev.time ∧
        ((∃ pg, ev.kind = .fetchCall pid pg ps) ∨ ∃ cs, ev.kind = .storeCall cs) := by
  intro fuel
  induction fuel with
  | zero =>
    intro page processed clock ev hev
    cases hev
  | succ fuel ih =>
    intro page processed clock ev hev
    cases hf : env.fetchClusters pid page ps with
    | error cause =>
      simp only [pageLoop, hf, PageLoopResult.events, List.mem_singleton] at hev
      subst hev
      exact ⟨Nat.le_refl _, Or.inl ⟨page, rfl⟩⟩
    | ok pr =>
      obtain ⟨clusters, total⟩ := pr
      cases hs : env.storeClusters clusters with
      | error cause =>
        simp only [pageLoop, hf, hs, PageLoopResult.events, List.mem_cons,
          List.mem_singleton, List.not_mem_nil, or_false] at hev
        rcases hev with hev | hev
        · subst hev
          exact ⟨Nat.le_refl _, Or.inl ⟨page, rfl⟩⟩
        · subst hev
          exact ⟨Nat.le_succ_of_le (Nat.le_refl _), Or.inr ⟨clusters, rfl⟩⟩
      | ok u =>
        by_cases hbr : ((processed + clusters.length : Nat) : Int) ≥ total
        · simp only [pageLoop, hf, hs, if_pos hbr, PageLoopResult.events,
            List.mem_cons, List.mem_singleton, List.not_mem_nil, or_false] at hev
          rcases hev with hev | hev
          · subst hev
            exact ⟨Nat.le_refl _, Or.inl ⟨page, rfl⟩⟩
          · subst hev
            exact ⟨Nat.le_succ_of_le (Nat.le_refl _), Or.inr ⟨clusters, rfl⟩⟩
        · simp only [pageLoop, hf, hs, if_neg hbr] at hev
          cases hrec : pageLoop env pid ps fuel (page + 1) (processed + clusters.length)
              (clock + 2) with
          | done p c evs =>
            rw [hrec] at hev
            simp only [PageLoopResult.events, List.mem_cons] at hev
            rcases hev with hev | hev | hev
            · subst hev
              exact ⟨Nat.le_refl _, Or.inl ⟨page, rfl⟩⟩
            · subst hev
              exact ⟨Nat.le_succ_of_le (Nat.le_refl _), Or.inr ⟨clusters, rfl⟩⟩
            · have := ih (page + 1) (processed + clusters.length) (clock + 2) ev
                (by rw [hrec]; exact hev)
              exact ⟨Nat.le_trans (Nat.le_add_right clock 2) this.1, this.2⟩
          | fail e evs =>
            rw [hrec] at hev
            simp only [PageLoopResult.events, List.mem_cons] at hev
            rcases hev with hev | hev | hev
            · subst hev
              exact ⟨Nat.le_refl _, Or.inl ⟨page, rfl⟩⟩
            · subst hev
              exact ⟨Nat.le_succ_of_le (Nat.le_refl _), Or.inr ⟨clusters, rfl⟩⟩
            · have := ih (page + 1) (processed + clusters.length) (clock + 2) ev
                (by rw [hrec]; exact hev)
              exact ⟨Nat.le_trans (Nat.le_add_right clock 2) this.1, this.2⟩
          | spin evs =>
            rw [hrec] at hev
            simp only [PageLoopResult.events, List.mem_cons] at hev
            rcases hev with hev | hev | hev
            · subst hev
              exact ⟨Nat.le_refl _, Or.inl ⟨page, rfl⟩⟩
            · subst hev
              exact ⟨Nat.le_succ_of_le (Nat.le_refl _), Or.inr ⟨clusters, rfl⟩⟩
            · have := ih (page + 1) (processed + clusters.length) (clock + 2) ev
                (by rw [hrec]; exact hev)
              exact ⟨Nat.le_trans (Nat.le_add_right clock 2) this.1, this.2⟩

/-- Claims C3/C6, helper: a pagination loop that completes ends at a clock
strictly after the one it started with. -/
theorem pageLoop_done_clock (env : SyncEnv) (pid : String) (ps : Int) :
    ∀ (fuel page processed clock p c : Nat) (evs : List Event),
      pageLoop env pid ps fuel page processed clock = .done p c evs → clock < c := by
  intro fuel
  induction fuel with
  | zero =>
    intro page processed clock p c evs h
    cases h
  | succ fuel ih =>
    intro page processed clock p c evs h
    cases hf : env.fetchClusters pid page ps with
    | error cause =>
      simp only [pageLoop, hf] at h
      cases h
    | ok pr =>
      obtain ⟨clusters, total⟩ := pr
      cases hs : env.storeClusters clusters with
      | error cause =>
        simp only [pageLoop, hf, hs] at h
        cases h
      | ok u =>
        by_cases hbr : ((processed + clusters.length : Nat) : Int) ≥ total
        · simp only [pageLoop, hf, hs, if_pos hbr] at h
          cases h
          exact Nat.lt_add_of_pos_right (by decide)
        · simp only [pageLoop, hf, hs, if_neg hbr] at h
          cases hrec : pageLoop env pid ps fuel (page + 1) (processed + clusters.length)
              (clock + 2) with
          | done p2 c2 evs2 =>
            rw [hrec] at h
            cases h
            have := ih (page + 1) (processed + clusters.length) (clock + 2) _ _ _ hrec
            exact Nat.lt_of_le_of_lt (Nat.le_add_right clock 2) this
          | fail e evs2 =>
            rw [hrec] at h
            cases h
          | spin evs2 =>
            rw [hrec] at h
            cases h

/-- Claim C3: when a project completes successfully, the sync epoch passed
to the stale marker is exactly the clock captured before the first fetch
(every pagination call is stamped strictly later), the stale marker is
invoked exactly once for the project — as the last call, with
(projectID, epoch) — its result is the project's deleted count, and that
count flows into the run summary. -/
theorem sync_epoch_before_fetch (env : SyncEnv) (pid : String) (pageSize : Int)
    (fuel clock processed : Nat) (deleted : Int) (clock2 : Nat) (evs : List Event)
    (h : processProject env pid pageSize fuel clock = .ok processed deleted clock2 evs) :
    ∃ (evs0 : List Event) (t : Nat),
      evs = evs0 ++ [⟨t, .markStaleCall pid clock⟩] ∧
      clock < t ∧
      (∀ ev ∈ evs0, ∀ (q : String) (e0 : Nat), ev.kind ≠ .markStaleCall q e0) ∧
      (∀ ev ∈ evs0, clock < ev.time) ∧
      env.markStale pid clock = .ok deleted ∧
      runProjects env pageSize fuel [pid] clock 0 0 0 =
        (evs, some ⟨1, processed, deleted, none⟩) := by
  cases hpl : pageLoop env pid pageSize fuel 1 0 (clock + 1) with
  | spin evs1 =>
    rw [processProject, hpl] at h
    cases h
  | fail e evs1 =>
    rw [processProject, hpl] at h
    cases h
  | done p c evs1 =>
    rw [processProject, hpl] at h
    cases hms : env.markStale pid clock with
    | error cause =>
      rw [hms] at h
      cases h
    | ok d =>
      rw [hms] at h
      cases h
      refine ⟨evs1, c, rfl, ?_, ?_, ?_, rfl, ?_⟩
      · exact Nat.lt_of_le_of_lt (Nat.le_succ clock)
          (pageLoop_done_clock env pid pageSize fuel 1 0 (clock + 1) _ _ _ hpl)
      · intro ev hev q e0
        have := (pageLoop_events_shape env pid pageSize fuel 1 0 (clock + 1) ev
          (by rw [hpl]; exact hev)).2
        rcases this with ⟨pg, hk⟩ | ⟨cs, hk⟩ <;> rw [hk] <;> intro hcontra <;> cases hcontra
      · intro ev hev
        have := (pageLoop_events_shape env pid pageSize fuel 1 0 (clock + 1) ev
          (by rw [hpl]; exact hev)).1
        exact Nat.lt_of_lt_of_le (Nat.lt_succ_self clock) this
      · simp only [runProjects, processProject, hpl, hms, List.append_nil,
          Nat.zero_add, Int.zero_add]

/-- Claim C3, witness: a concrete single-page run. -/
theorem sync_epoch_before_fetch_witness :
    ∃ (evs0 : List Event) (t : Nat),
      ([⟨1, .fetchCall "p" 1 20⟩, ⟨2, .storeCall []⟩, ⟨3, .markStaleCall "p" 0⟩]
          : List Event) = evs0 ++ [⟨t, .markStaleCall "p" 0⟩] ∧
      0 < t ∧
      (∀ ev ∈ evs0, ∀ (q : String) (e0 : Nat), ev.kind ≠ .markStaleCall q e0) ∧
      (∀ ev ∈ evs0, 0 < ev.time) ∧
      (⟨fun _ _ _ => .ok ([], 0), fun _ => .ok (), fun _ _ => .ok 3⟩ :
        SyncEnv).markStale "p" 0 = .ok 3 ∧
      runProjects ⟨fun _ _ _ => .ok ([], 0), fun _ => .ok (), fun _ _ => .ok 3⟩
          20 1 ["p"] 0 0 0 0 =
        ([⟨1, .fetchCall "p" 1 20⟩, ⟨2, .storeCall []⟩, ⟨3, .markStaleCall "p" 0⟩],
         some ⟨1, 0, 3, none⟩) :=
  sync_epoch_before_fetch ⟨fun _ _ _ => .ok ([], 0), fun _ => .ok (), fun _ _ => .ok 3⟩
    "p" 20 1 0 0 3 4
    [⟨1, .fetchCall "p" 1 20⟩, ⟨2, .storeCall []⟩, ⟨3, .markStaleCall "p" 0⟩] (by rfl)

/-- Claim C2: a fixed remote item for the well-behaved fetcher's pages. -/
def testCluster : Cluster := ⟨"c", "p", "c", "t", "aws", "r", "0", ⟨"v", "s"⟩⟩

/-- Claim C2: the well-behaved fetcher of the claim: every call reports
total T and page `page` carries min(P, T - (page-1)*P) items; store and
stale marker always succeed. -/
def goodFetchEnv (T P : Nat) : SyncEnv :=
  ⟨fun _ page _ => .ok (List.replicate (min P (T - (page - 1) * P)) testCluster, (T : Int)),
   fun _ => .ok (), fun _ _ => .ok 0⟩

/-- The page numbers of the fetch calls of a trace, in order. -/
def fetchPages (evs : List Event) : List Nat :=
  evs.filterMap (fun ev =>
    match ev.kind with
    | .fetchCall _ pg _ => some pg
    | _ => none)

/-- The item counts of the store calls of a trace, in order: one store per
fetched page, storing exactly the fetched items. -/
def storedCounts (evs : List Event) : List Nat :=
  evs.filterMap (fun ev =>
    match ev.kind with
    | .storeCall cs => some cs.length
    | _ => none)

/-- Claim C2, helper: the ceiling division bound. -/
theorem ceil_le_iff (T P k : Nat) (hP : 0 < P) : (T + P - 1) / P ≤ k ↔ T ≤ k * P := by
  rw [Nat.div_le_iff_le_mul_add_pred hP, Nat.mul_comm P k]
  omega

/-- Claim C2, helper: the pagination loop under the well-behaved fetcher,
entered at any page with the processed count the previous pages account for,
finishes with processed = T after exactly the remaining ceil(T/P) pages,
fetching consecutive page numbers and storing the remaining items. -/
theorem pageLoop_good (T P : Nat) (hP : 0 < P) (pid : String) (ps : Int) :
    ∀ (fuel page clock : Nat),
      1 ≤ page →
      (page = 1 ∨ (page - 1) * P < T) →
      max 1 ((T + P - 1) / P) ≤ fuel + (page - 1) →
      ∃ evs,
        pageLoop (goodFetchEnv T P) pid ps fuel page ((page - 1) * P) clock =
          .done T (clock + 2 * (max 1 ((T + P - 1) / P) - (page - 1))) evs ∧
        fetchPages evs = List.range' page (max 1 ((T + P - 1) / P) - (page - 1)) ∧
        (storedCounts evs).sum = T - (page - 1) * P := by
  intro fuel
  induction fuel with
  | zero =>
    intro page clock h1 h2 h3
    exfalso
    rcases h2 with h2 | h2
    · subst h2
      omega
    · have hc : (T + P - 1) / P ≤ page - 1 := by omega
      exact absurd ((ceil_le_iff T P (page - 1) hP).mp hc) (by omega)
  | succ fuel ih =>
    intro page clock h1 h2 h3
    have hmul : (page - 1) * P + P = page * P := by
      cases page with
      | zero => omega
      | succ q => simp [Nat.succ_mul]
    have hple : (page - 1) * P ≤ T := by
      rcases h2 with h2 | h2
      · subst h2
        simp
      · omega
    by_cases hbr : T ≤ (page - 1) * P + min P (T - (page - 1) * P)
    · -- final page: the loop breaks here, and this page is page ceil(T/P)
      have hTle : T ≤ page * P := by omega
      have hcle : (T + P - 1) / P ≤ page := (ceil_le_iff T P page hP).mpr hTle
      have hlb : page = 1 ∨ page - 1 < (T + P - 1) / P := by
        rcases h2 with h | h
        · exact Or.inl h
        · right
          by_contra hcon
          push_neg at hcon
          exact absurd ((ceil_le_iff T P (page - 1) hP).mp hcon) (by omega)
      have hn : max 1 ((T + P - 1) / P) = page := by
        rcases hlb with h | h <;> omega
      have hcond : (((page - 1) * P +
          (List.replicate (min P (T - (page - 1) * P)) testCluster).length : Nat) : Int) ≥
          (T : Int) := by
        rw [List.length_replicate]
        exact_mod_cast hbr
      refine ⟨[⟨clock, .fetchCall pid page ps⟩,
        ⟨clock + 1, .storeCall (List.replicate (min P (T - (page - 1) * P)) testCluster)⟩],
        ?_, ?_, ?_⟩
      · simp only [pageLoop, goodFetchEnv]
        rw [if_pos hcond]
        have hA : (page - 1) * P + (List.replicate (min P (T - (page - 1) * P))
            testCluster).length = T := by
          rw [List.length_replicate]
          omega
        have hB : max 1 ((T + P - 1) / P) - (page - 1) = 1 := by omega
        rw [hA, hB]
      · have hB : max 1 ((T + P - 1) / P) - (page - 1) = 1 := by omega
        rw [hB]
        rfl
      · simp only [storedCounts, List.filterMap, List.length_replicate]
        simp [List.sum_cons]
        omega
    · -- more pages remain: this page carries exactly P items
      have hitems : min P (T - (page - 1) * P) = P := by omega
      have hlt : page * P < T := by omega
      have hgt : page < (T + P - 1) / P := by
        by_contra hcon
        push_neg at hcon
        exact absurd ((ceil_le_iff T P page hP).mp hcon) (by omega)
      obtain ⟨evs, hrun, hpages, hsum⟩ := ih (page + 1) (clock + 2) (by omega)
        (Or.inr (by simpa using hlt)) (by omega)
      have hcond : ¬ ((((page - 1) * P +
          (List.replicate (min P (T - (page - 1) * P)) testCluster).length : Nat) : Int) ≥
          (T : Int)) := by
        rw [List.length_replicate]
        intro hcontra
        exact hbr (by exact_mod_cast hcontra)
      refine ⟨⟨clock, .fetchCall pid page ps⟩ ::
        ⟨clock + 1, .storeCall (List.replicate (min P (T - (page - 1) * P)) testCluster)⟩ ::
        evs, ?_, ?_, ?_⟩
      · simp only [pageLoop, goodFetchEnv]
        rw [if_neg hcond]
        have hproc : (page - 1) * P + (List.replicate (min P (T - (page - 1) * P))
            testCluster).length = (page + 1 - 1) * P := by
          rw [List.length_replicate]
          have hmul2 : (page + 1 - 1) * P = page * P := by rw [Nat.add_sub_cancel]
          omega
        rw [hproc]
        have hrun2 : pageLoop (goodFetchEnv T P) pid ps fuel (page + 1) ((page + 1 - 1) * P)
            (clock + 2) = .done T (clock + 2 + 2 * (max 1 ((T + P - 1) / P) - (page + 1 - 1)))
            evs := hrun
        simp only [goodFetchEnv] at hrun2
        rw [hrun2]
        have hB : clock + 2 + 2 * (max 1 ((T + P - 1) / P) - (page + 1 - 1)) =
            clock + 2 * (max 1 ((T + P - 1) / P) - (page - 1)) := by omega
        rw [hB]
      · simp only [fetchPages, List.filterMap] at hpages ⊢
        rw [hpages]
        have hB : max 1 ((T + P - 1) / P) - (page - 1) =
            (max 1 ((T + P - 1) / P) - (page + 1 - 1)) + 1 := by omega
        rw [hB, List.range'_succ]
      · simp only [storedCounts, List.filterMap] at hsum ⊢
        simp only [List.sum_cons, hsum, List.length_replicate]
        have hmul2 : (page + 1 - 1) * P = page * P := by rw [Nat.add_sub_cancel]
        omega

/-- Claim C2: against the well-behaved fetcher that reports total T and
serves min(P, T-(page-1)*P) items per page, the orchestrator's loop
terminates with processed = T, having fetched exactly max(1, ceil(T/P))
pages at consecutive page numbers 1, 2, ..., the stored item counts summing
to T, and the run summary records T items processed for the parent key. -/
theorem pagination_completeness (pid : String) (T P fuel clock : Nat) (ps : Int)
    (hP : 0 < P) (hfuel : max 1 ((T + P - 1) / P) ≤ fuel) :
    1 ≤ max 1 ((T + P - 1) / P) ∧
    (∃ (clock2 : Nat) (evs : List Event),
      pageLoop (goodFetchEnv T P) pid ps fuel 1 0 clock = .done T clock2 evs ∧
      fetchPages evs = List.range' 1 (max 1 ((T + P - 1) / P)) ∧
      (storedCounts evs).sum = T) ∧
    (fetchAndStoreClusters (goodFetchEnv T P) [pid] ps fuel clock).2 =
      some ⟨1, T, 0, none⟩ := by
  have h0 : (1 - 1) * P = 0 := by simp
  obtain ⟨evs, hrun, hpages, hsum⟩ :=
    pageLoop_good T P hP pid ps fuel 1 clock (Nat.le_refl 1) (Or.inl rfl) (by omega)
  rw [h0] at hrun hsum
  obtain ⟨evs2, hrun2, hp2, hs2⟩ :=
    pageLoop_good T P hP pid ps fuel 1 (clock + 1) (Nat.le_refl 1) (Or.inl rfl) (by omega)
  rw [h0] at hrun2
  refine ⟨Nat.le_max_left 1 _, ⟨_, evs, hrun, hpages, by omega⟩, ?_⟩
  simp only [goodFetchEnv] at hrun2
  simp [fetchAndStoreClusters, runProjects, processProject, goodFetchEnv, hrun2]

/-- Claim C2, witness: T = 5 items at page size 2 — three pages of sizes
2, 2, 1. -/
theorem pagination_completeness_witness :
    1 ≤ max 1 ((5 + 2 - 1) / 2) ∧
    (∃ (clock2 : Nat) (evs : List Event),
      pageLoop (goodFetchEnv 5 2) "p" 2 3 1 0 0 = .done 5 clock2 evs ∧
      fetchPages evs = List.range' 1 (max 1 ((5 + 2 - 1) / 2)) ∧
      (storedCounts evs).sum = 5) ∧
    (fetchAndStoreClusters (goodFetchEnv 5 2) ["p"] 2 3 0).2 =
      some ⟨1, 5, 0, none⟩ :=
  pagination_completeness "p" 5 2 3 0 2 (by decide) (by decide)

/-- The project an orchestrator call refers to (none for a store call, whose
batch is not tagged with a project). -/
def eventProject : EventKind → Option String
  | .fetchCall pid _ _ => some pid
  | .markStaleCall pid _ => some pid
  | .storeCall _ => none

/-- Claim C6, helper: a failing pagination loop reports an error naming the
project it was fetching. -/
theorem pageLoop_fail_projectID (env : SyncEnv) (pid : String) (ps : Int) :
    ∀ (fuel page processed clock : Nat) (e : SyncErr) (evs : List Event),
      pageLoop env pid ps fuel page processed clock = .fail e evs →
      e.projectID = pid := by
  intro fuel
  induction fuel with
  | zero =>
    intro page processed clock e evs h
    cases h
  | succ fuel ih =>
    intro page processed clock e evs h
    cases hf : env.fetchClusters pid page ps with
    | error cause =>
      simp only [pageLoop, hf] at h
      cases h
      rfl
    | ok pr =>
      obtain ⟨clusters, total⟩ := pr
      cases hs : env.storeClusters clusters with
      | error cause =>
        simp only [pageLoop, hf, hs] at h
        cases h
        rfl
      | ok u =>
        by_cases hbr : ((processed + clusters.length : Nat) : Int) ≥ total
        · simp only [pageLoop, hf, hs, if_pos hbr] at h
          cases h
        · simp only [pageLoop, hf, hs, if_neg hbr] at h
          cases hrec : pageLoop env pid ps fuel (page + 1) (processed + clusters.length)
              (clock + 2) with
          | done p2 c2 evs2 =>
            rw [hrec] at h
            cases h
          | fail e2 evs2 =>
            rw [hrec] at h
            cases h
            exact ih (page + 1) (processed + clusters.length) (clock + 2) _ _ hrec
          | spin evs2 =>
            rw [hrec] at h
            cases h

/-- Claim C6, helper: every call a project's processing makes refers to that
project only, and a failed processing reports an error naming it. -/
theorem processProject_events_within (env : SyncEnv) (pid : String) (ps : Int)
    (fuel clock : Nat) :
    (∀ (pr : Nat) (dl : Int) (c2 : Nat) (evs : List Event),
      processProject env pid ps fuel clock = .ok pr dl c2 evs →
      ∀ ev ∈ evs, ∀ q : String, eventProject ev.kind = some q → q = pid) ∧
    (∀ (e : SyncErr) (evs : List Event),
      processProject env pid ps fuel clock = .fail e evs →
      (∀ ev ∈ evs, ∀ q : String, eventProject ev.kind = some q → q = pid) ∧
      e.projectID = pid) := by
  have hshape : ∀ ev ∈ (pageLoop env pid ps fuel 1 0 (clock + 1)).events,
      ∀ q : String, eventProject ev.kind = some q → q = pid := by
    intro ev hev q hq
    rcases (pageLoop_events_shape env pid ps fuel 1 0 (clock + 1) ev hev).2 with
      ⟨pg, hk⟩ | ⟨cs, hk⟩
    · rw [hk] at hq
      cases hq
      rfl
    · rw [hk] at hq
      cases hq
  cases hpl : pageLoop env pid ps fuel 1 0 (clock + 1) with
  | spin evs1 =>
    refine ⟨?_, ?_⟩
    · intro pr dl c2 evs h
      rw [processProject, hpl] at h
      cases h
    · intro e evs h
      rw [processProject, hpl] at h
      cases h
  | fail e1 evs1 =>
    refine ⟨?_, ?_⟩
    · intro pr dl c2 evs h
      rw [processProject, hpl] at h
      cases h
    · intro e evs h
      rw [processProject, hpl] at h
      cases h
      refine ⟨?_, pageLoop_fail_projectID env pid ps fuel 1 0 (clock + 1) _ _ hpl⟩
      intro ev hev q hq
      exact hshape ev (by rw [hpl]; exact hev) q hq
  | done p2 c2 evs1 =>
    cases hms : env.markStale pid clock with
    | error cause =>
      refine ⟨?_, ?_⟩
      · intro pr dl c3 evs h
        rw [processProject, hpl, hms] at h
        cases h
      · intro e evs h
        rw [processProject, hpl, hms] at h
        cases h
        refine ⟨?_, rfl⟩
        intro ev hev q hq
        rcases List.mem_append.mp hev with hev | hev
        · exact hshape ev (by rw [hpl]; exact hev) q hq
        · rw [List.mem_singleton.mp hev] at hq
          cases hq
          rfl
    | ok d =>
      refine ⟨?_, ?_⟩
      · intro pr dl c3 evs h
        rw [processProject, hpl, hms] at h
        cases h
        intro ev hev q hq
        rcases List.mem_append.mp hev with hev | hev
        · exact hshape ev (by rw [hpl]; exact hev) q hq
        · rw [List.mem_singleton.mp hev] at hq
          cases hq
          rfl
      · intro e evs h
        rw [processProject, hpl, hms] at h
        cases h

/-- Claim C6, helper: whenever the outer loop returns an error, the three
accumulated counters are discarded (zeros are returned), the project list
splits into fully completed projects, the failing project, and untouched
remainder, the trace splits accordingly, and the error names the failing
project. -/
theorem runProjects_err (env : SyncEnv) (pageSize : Int) (fuel : Nat) :
    ∀ (pids : List String) (clock tp tc : Nat) (td : Int) (evs : List Event)
      (p c : Nat) (d : Int) (e : SyncErr),
      runProjects env pageSize fuel pids clock tp tc td = (evs, some ⟨p, c, d, some e⟩) →
      p = 0 ∧ c = 0 ∧ d = 0 ∧
      ∃ (pre : List String) (pid : String) (post : List String)
        (evsPre evsFail : List Event) (clock2 : Nat),
        pids = pre ++ pid :: post ∧
        e.projectID = pid ∧
        evs = evsPre ++ evsFail ∧
        processProject env pid pageSize fuel clock2 = .fail e evsFail ∧
        (∀ ev ∈ evsPre, ∀ q : String, eventProject ev.kind = some q → q ∈ pre) ∧
        (∀ ev ∈ evsFail, ∀ q : String, eventProject ev.kind = some q → q = pid) := by
  intro pids
  induction pids with
  | nil =>
    intro clock tp tc td evs p c d e h
    simp only [runProjects] at h
    injection h with h1 h2
    injection h2 with h3
    injection h3 with e1 e2 e3 e4
    cases e4
  | cons pid rest ih =>
    intro clock tp tc td evs p c d e h
    cases hpp : processProject env pid pageSize fuel clock with
    | spin evs0 =>
      simp only [runProjects, hpp] at h
      injection h with h1 h2
      cases h2
    | fail e0 evs0 =>
      simp only [runProjects, hpp] at h
      injection h with h1 h2
      injection h2 with h3
      injection h3 with g1 g2 g3 g4
      injection g4 with g5
      have hw := (processProject_events_within env pid pageSize fuel clock).2 e0 evs0 hpp
      refine ⟨g1.symm, g2.symm, g3.symm, [], pid, rest, [], evs, clock, rfl,
        g5 ▸ hw.2, (List.nil_append evs).symm, ?_,
        fun ev hev => absurd hev (List.not_mem_nil ev), ?_⟩
      · rw [← g5, ← h1]
        exact hpp
      · intro ev hev q hq
        exact hw.1 ev (by rw [h1]; exact hev) q hq
    | ok pr dl clock2 evs0 =>
      simp only [runProjects, hpp] at h
      injection h with h1 h2
      have hih := ih clock2 (tp + 1) (tc + pr) (td + dl)
        (runProjects env pageSize fuel rest clock2 (tp + 1) (tc + pr) (td + dl)).1
        p c d e (by rw [← h2])
      obtain ⟨hp, hc, hd, pre, pid2, post, evsPre, evsFail, clock3, hsplit, hname,
        htrace, hfail, hwithinPre, hwithinFail⟩ := hih
      refine ⟨hp, hc, hd, pid :: pre, pid2, post, evs0 ++ evsPre, evsFail, clock3,
        by rw [hsplit]; rfl, hname, ?_, hfail, ?_, hwithinFail⟩
      · rw [← h1, htrace, List.append_assoc]
      · intro ev hev q hq
        rcases List.mem_append.mp hev with hev | hev
        · have hpid := (processProject_events_within env pid pageSize fuel clock).1
            pr dl clock2 evs0 hpp ev hev q hq
          rw [hpid]
          exact List.mem_cons_self pid pre
        · exact List.mem_cons_of_mem pid (hwithinPre ev hev q hq)

/-- Claim C6: any failure at any stage makes FetchAndStoreClusters return
zeros for all three summary counters together with an error naming the
failing project; the trace is exactly the calls of the fully completed
projects followed by the failed project's calls up to the failing one —
nothing is fetched, stored or stale-marked afterwards, and nothing already
committed is revisited. -/
theorem fail_fast_abort (env : SyncEnv) (projectIDs : List String) (pageSize : Int)
    (fuel clock : Nat) (evs : List Event) (p c : Nat) (d : Int) (e : SyncErr)
    (h : fetchAndStoreClusters env projectIDs pageSize fuel clock =
      (evs, some ⟨p, c, d, some e⟩)) :
    p = 0 ∧ c = 0 ∧ d = 0 ∧
    ∃ (pre : List String) (pid : String) (post : List String)
      (evsPre evsFail : List Event) (clock2 : Nat),
      projectIDs = pre ++ pid :: post ∧
      e.projectID = pid ∧
      evs = evsPre ++ evsFail ∧
      processProject env pid pageSize fuel clock2 = .fail e evsFail ∧
      (∀ ev ∈ evsPre, ∀ q : String, eventProject ev.kind = some q → q ∈ pre) ∧
      (∀ ev ∈ evsFail, ∀ q : String, eventProject ev.kind = some q → q = pid) :=
  runProjects_err env pageSize fuel projectIDs clock 0 0 0 evs p c d e h

/-- Claim C6, witness environment: project "a" has nothing to sync, project
"b" fails its first fetch. -/
def failFetchEnv : SyncEnv :=
  ⟨fun pid _ _ => if pid = "b" then .error "boom" else .ok ([], 0),
   fun _ => .ok (), fun _ _ => .ok 0⟩

/-- Claim C6, witness: a two-project run whose second project fails to
fetch returns zeros and an error naming project "b", with the trace split
after project "a"'s completed calls. -/
theorem fail_fast_abort_witness :
    (0 : Nat) = 0 ∧ (0 : Nat) = 0 ∧ (0 : Int) = 0 ∧
    ∃ (pre : List String) (pid : String) (post : List String)
      (evsPre evsFail : List Event) (clock2 : Nat),
      (["a", "b"] : List String) = pre ++ pid :: post ∧
      (SyncErr.fetchFailed "b" 20 "boom").projectID = pid ∧
      ([⟨1, .fetchCall "a" 1 20⟩, ⟨2, .storeCall []⟩, ⟨3, .markStaleCall "a" 0⟩,
        ⟨5, .fetchCall "b" 1 20⟩] : List Event) = evsPre ++ evsFail ∧
      processProject failFetchEnv pid 20 1 clock2 =
        .fail (SyncErr.fetchFailed "b" 20 "boom") evsFail ∧
      (∀ ev ∈ evsPre, ∀ q : String, eventProject ev.kind = some q → q ∈ pre) ∧
      (∀ ev ∈ evsFail, ∀ q : String, eventProject ev.kind = some q → q = pid) :=
  fail_fast_abort failFetchEnv ["a", "b"] 20 1 0
    [⟨1, .fetchCall "a" 1 20⟩, ⟨2, .storeCall []⟩, ⟨3, .markStaleCall "a" 0⟩,
     ⟨5, .fetchCall "b" 1 20⟩]
    0 0 0 (.fetchFailed "b" 20 "boom") (by decide)
